import Mathlib

/-!
Verification of `src/services/geminiService.ts` (anatomyotter).

Strings from the JavaScript side are embedded as `List Char`; JavaScript's
`String.prototype.includes`, `substring(0, n)`, `split(sep)` and `.length`
become `listContainsSub`, `List.take n`, `splitB64` and `List.length`.
Errors carry an optional numeric `status` and an optional `message`, matching
the fields the code inspects on a caught exception.
-/

/-- Does `s` start with `pat`?  Backs the substring test below. -/
def listStartsWith : List Char → List Char → Bool
  | _, [] => true
  | [], _ :: _ => false
  | c :: cs, p :: ps => c == p && listStartsWith cs ps

/-- JavaScript `s.includes(pat)` on character lists. -/
def listContainsSub (pat : List Char) : List Char → Bool
  | [] => pat.isEmpty
  | c :: cs => listStartsWith (c :: cs) pat || listContainsSub pat cs

/-- A caught JavaScript error as the service inspects it: an optional
numeric `status` field and an optional `message` string. -/
structure JsError where
  status : Option Nat
  message : Option (List Char)
deriving DecidableEq

/-- `e.message.includes(pat)` guarded by `e.message` being present. -/
def msgHas (e : JsError) (pat : List Char) : Bool :=
  match e.message with
  | some m => listContainsSub pat m
  | none => false

/-- JavaScript truthiness of `e.message` (absent or empty string is falsy). -/
def msgTruthy (e : JsError) : Bool :=
  match e.message with
  | some m => !m.isEmpty
  | none => false

/-- Lines 41-49: classification of an error as a rate-limit/overload
(Transient) failure: status 429 or 503, or a message containing one of the
markers "429", "quota", "RESOURCE_EXHAUSTED", "Overloaded". -/
def isRateLimit (e : JsError) : Bool :=
  e.status == some 429 || e.status == some 503 ||
    (msgTruthy e &&
      (msgHas e "429".data || msgHas e "quota".data ||
        msgHas e "RESOURCE_EXHAUSTED".data || msgHas e "Overloaded".data))

/-- Outcome of one invocation of the wrapped call. -/
inductive CallOutcome (T : Type) where
  | success (v : T)
  | failure (e : JsError)
deriving DecidableEq

/-- What `retryGeminiCall` can throw: the original error rethrown (line 57),
or a freshly constructed friendly `Error` (lines 65, 67). -/
inductive RetryError where
  | raised (e : JsError)
  | friendly (msg : List Char)
deriving DecidableEq

/-- Line 65: the friendly quota-exhausted message. -/
def quotaExhaustedMsg : List Char :=
  "Đã hết hạn mức sử dụng AI (Quota Exceeded). Vui lòng kiểm tra gói cước hoặc thử lại vào ngày mai.".data

/-- Line 67: the friendly generic-overload message. -/
def overloadedMsg : List Char :=
  "Hệ thống AI đang quá tải. Vui lòng thử lại sau vài giây.".data

/-- Line 63: `lastError?.message || "Unknown error"`. -/
def cleanMsgOf : Option JsError → List Char
  | none => "Unknown error".data
  | some e =>
    match e.message with
    | none => "Unknown error".data
    | some m => if m.isEmpty then "Unknown error".data else m

/-- Lines 62-67: the post-loop terminal error after retries are exhausted. -/
def exhaustedError (lastError : Option JsError) : RetryError :=
  let m := cleanMsgOf lastError
  if listContainsSub "quota".data m || listContainsSub "RESOURCE_EXHAUSTED".data m then
    RetryError.friendly quotaExhaustedMsg
  else
    RetryError.friendly overloadedMsg

/-- One full run of the wrapper: the value returned or error thrown, the
number of invocations of the wrapped call, and the list of delays slept. -/
structure RetryRun (T : Type) where
  result : Except RetryError T
  attempts : Nat
  delays : List Nat

/-- Lines 34-60: the retry loop of `retryGeminiCall`.  `remaining` is
`retries - i`, so the loop guard `i < retries` is `remaining > 0` and the
last-iteration test `i === retries - 1` is `remaining = 1`.  On a transient
failure with iterations left it sleeps `delay` (recorded in the trace) and
doubles it (line 55); on the last iteration it breaks to the post-loop
terminal error; a non-transient failure is rethrown at once (line 57). -/
def retryLoop {T : Type} (call : Nat → CallOutcome T) :
    Nat → Nat → Nat → Option JsError → List Nat → RetryRun T
  | 0, i, _, lastError, acc => ⟨Except.error (exhaustedError lastError), i, acc⟩
  | remaining + 1, i, delay, _, acc =>
    match call i with
    | CallOutcome.success v => ⟨Except.ok v, i + 1, acc⟩
    | CallOutcome.failure e =>
      if isRateLimit e then
        if remaining = 0 then ⟨Except.error (exhaustedError (some e)), i + 1, acc⟩
        else retryLoop call remaining (i + 1) (delay * 2) (some e) (acc ++ [delay])
      else ⟨Except.error (RetryError.raised e), i + 1, acc⟩

/-- Lines 27-68: `retryGeminiCall(call, retries, initialDelay)`, with the
`i`-th attempt's outcome given by `call i`. -/
def retryGeminiCall {T : Type} (call : Nat → CallOutcome T)
    (retries initialDelay : Nat) : RetryRun T :=
  retryLoop call retries 0 initialDelay none []

/-- Lines 13-16: one user-supplied document. -/
structure ContentFile where
  content : List Char
  isText : Bool
deriving DecidableEq

/-- Line 149: the suffix appended to a truncated text item. -/
def TRUNC_SUFFIX : List Char :=
  "\n\n[...Nội dung file này đã bị cắt bớt do giới hạn bộ nhớ AI...]".data

/-- Line 161: the hardcoded media type of a binary attachment. -/
def MIME_PDF : List Char := "application/pdf".data

/-- Line 166: the fixed nominal budget penalty charged for a binary item. -/
def BINARY_PENALTY : Nat := 50000

/-- Line 20. -/
def LIMIT_THEORY_CHARS : Nat := 2400000

/-- Line 21. -/
def LIMIT_CLINICAL_CHARS : Nat := 1000000

/-- Line 22. -/
def LIMIT_SAMPLE_CHARS : Nat := 200000

/-- One element pushed onto `parts` by `addContentParts`, one constructor per
push site: the section header (line 131), the budget-stop warning (line 138),
a file-content text part carrying the possibly-truncated `textToAdd`
(line 152), an inline binary attachment (lines 159-164), and the section
footer (line 170). -/
inductive PackedSegment where
  | header (sectionTitle usageInstruction : List Char)
  | limitWarning
  | fileText (textToAdd : List Char)
  | attachment (mimeType data : List Char)
  | footer (sectionTitle : List Char)
deriving DecidableEq

/-- The literal text of each pushed segment, as built at the push sites. -/
def renderSegment : PackedSegment → List Char
  | PackedSegment.header t u =>
    "\n=== BẮT ĐẦU PHẦN: ".data ++ t ++ " ===\nCHỈ DẪN: ".data ++ u ++ "\n".data
  | PackedSegment.limitWarning =>
    "\n[CẢNH BÁO: Đã ngưng tải thêm tài liệu phần này do vượt quá giới hạn bộ nhớ cho phép]\n".data
  | PackedSegment.fileText s => "\n--- FILE CONTENT ---\n".data ++ s ++ "\n".data
  | PackedSegment.attachment _ d => d
  | PackedSegment.footer t => "=== KẾT THÚC PHẦN: ".data ++ t ++ " ===\n".data

/-- JavaScript `content.split('base64,')` (line 158): splits at every
non-overlapping occurrence of the 7-character marker, scanned left to right.
The accumulator holds the current piece reversed. -/
def splitB64 : List Char → List Char → List (List Char)
  | 'b' :: 'a' :: 's' :: 'e' :: '6' :: '4' :: ',' :: rest, acc =>
    acc.reverse :: splitB64 rest []
  | c :: cs, acc => splitB64 cs (c :: acc)
  | [], acc => [acc.reverse]

/-- Line 158: `content.includes('base64,') ? content.split('base64,')[1]
: content`. -/
def stripBase64 (content : List Char) : List Char :=
  if listContainsSub "base64,".data content then (splitB64 content []).getD 1 []
  else content

/-- Everything after the first occurrence of the base64 marker. -/
def afterB64Marker : List Char → List Char
  | 'b' :: 'a' :: 's' :: 'e' :: '6' :: '4' :: ',' :: rest => rest
  | _ :: cs => afterB64Marker cs
  | [] => []

/-- Modelled from the claim wording, for comparison with `stripBase64`:
"the substring after the base64 marker when present, the full content
otherwise". -/
def stripSpecWorded (content : List Char) : List Char :=
  if listContainsSub "base64,".data content then afterB64Marker content
  else content

/-- Lines 135-169: the per-category item loop of `addContentParts`, returning
the pushed segments.  Per item: if `currentChars >= charLimit` push the
warning and break; skip falsy (empty) content; for text compute
`remaining = charLimit - currentChars`, truncate and append the suffix when
the text is longer than `remaining`, push it and advance the counter by the
emitted length; for binary push the attachment and advance by the fixed
penalty. -/
def packSegs (charLimit : Nat) : List ContentFile → Nat → List PackedSegment
  | [], _ => []
  | item :: rest, currentChars =>
    if charLimit ≤ currentChars then [PackedSegment.limitWarning]
    else if item.content.isEmpty then packSegs charLimit rest currentChars
    else if item.isText then
      let remaining := charLimit - currentChars
      let textToAdd :=
        if remaining < item.content.length then item.content.take remaining ++ TRUNC_SUFFIX
        else item.content
      PackedSegment.fileText textToAdd :: packSegs charLimit rest (currentChars + textToAdd.length)
    else
      PackedSegment.attachment MIME_PDF (stripBase64 item.content) ::
        packSegs charLimit rest (currentChars + BINARY_PENALTY)

/-- The final value of `currentChars` for the same loop. -/
def packChars (charLimit : Nat) : List ContentFile → Nat → Nat
  | [], currentChars => currentChars
  | item :: rest, currentChars =>
    if charLimit ≤ currentChars then currentChars
    else if item.content.isEmpty then packChars charLimit rest currentChars
    else if item.isText then
      let remaining := charLimit - currentChars
      let textToAdd :=
        if remaining < item.content.length then item.content.take remaining ++ TRUNC_SUFFIX
        else item.content
      packChars charLimit rest (currentChars + textToAdd.length)
    else packChars charLimit rest (currentChars + BINARY_PENALTY)

/-- Every value taken by `currentChars` during the same loop, in order. -/
def packTrace (charLimit : Nat) : List ContentFile → Nat → List Nat
  | [], currentChars => [currentChars]
  | item :: rest, currentChars =>
    if charLimit ≤ currentChars then [currentChars]
    else if item.content.isEmpty then currentChars :: packTrace charLimit rest currentChars
    else if item.isText then
      let remaining := charLimit - currentChars
      let textToAdd :=
        if remaining < item.content.length then item.content.take remaining ++ TRUNC_SUFFIX
        else item.content
      currentChars :: packTrace charLimit rest (currentChars + textToAdd.length)
    else currentChars :: packTrace charLimit rest (currentChars + BINARY_PENALTY)

/-- Lines 128-171: `addContentParts` for one category: nothing for an absent
or empty item list, otherwise the header, the loop's segments starting from
counter 0, and the footer. -/
def addContentParts (fileItems : List ContentFile)
    (sectionTitle usageInstruction : List Char) (charLimit : Nat) : List PackedSegment :=
  if fileItems.isEmpty then []
  else
    PackedSegment.header sectionTitle usageInstruction ::
      (packSegs charLimit fileItems 0 ++ [PackedSegment.footer sectionTitle])

/-- Total characters of item-derived text emitted: the lengths of the
`textToAdd` payloads of the file-content segments (the quantity the running
counter charges for text). -/
def totalText : List PackedSegment → Nat
  | [] => 0
  | PackedSegment.fileText t :: rest => t.length + totalText rest
  | _ :: rest => totalText rest

/-- Number of budget-stop warning segments. -/
def countWarnings : List PackedSegment → Nat
  | [] => 0
  | PackedSegment.limitWarning :: rest => 1 + countWarnings rest
  | _ :: rest => countWarnings rest

/-- Lines 262-269. -/
structure StationQuestion where
  questionText : List Char
  correctAnswer : List Char
  explanation : List Char
deriving DecidableEq

/-- Lines 262-269. -/
structure StationQuestionResponse where
  isValid : Bool
  questions : List StationQuestion
deriving DecidableEq

/-- Lines 357-366: the catch handler of `generateStationQuestionFromImage`:
rethrow when the message mentions "quá tải", "quota" or "429", otherwise
return the safe default `{ isValid: false, questions: [] }`. -/
def visionCatch (e : JsError) : Except JsError StationQuestionResponse :=
  if msgTruthy e && (msgHas e "quá tải".data || msgHas e "quota".data || msgHas e "429".data) then
    Except.error e
  else Except.ok ⟨false, []⟩

/-- The try/catch of `generateStationQuestionFromImage` around its body: a
body that returns passes through, a body that throws (failed call, or
`JSON.parse` failure on the response text) goes to the catch handler. -/
def visionTryCatch (tryOutcome : Except JsError StationQuestionResponse) :
    Except JsError StationQuestionResponse :=
  match tryOutcome with
  | Except.ok v => Except.ok v
  | Except.error e => visionCatch e

/-- One roadmap step of the mentor response. -/
structure RoadmapStep where
  step : List Char
  details : List Char
deriving DecidableEq

/-- The mentor response shape of `analyzeResultWithOtter`. -/
structure MentorResponse where
  analysis : List Char
  strengths : List (List Char)
  weaknesses : List (List Char)
  roadmap : List RoadmapStep
deriving DecidableEq

/-- Lines 434-439: the fallback returned by `analyzeResultWithOtter`'s catch. -/
def mentorFallback : MentorResponse :=
  ⟨"Úi cha! Rái cá đang bận bắt cá nên không phân tích được rồi. Thử lại sau nhé! 🦦".data,
    [], [], []⟩

/-- Lines 432-440: the try/catch of `analyzeResultWithOtter`: every thrown
error is swallowed into the fallback. -/
def mentorTryCatch (tryOutcome : Except JsError MentorResponse) :
    Except JsError MentorResponse :=
  match tryOutcome with
  | Except.ok v => Except.ok v
  | Except.error _ => Except.ok mentorFallback

/-- Line 507: the fallback reply returned by `chatWithOtter`'s catch. -/
def chatFallback : List Char :=
  "Úi! Mạng bị nghẽn rồi, Rái cá không nghe rõ. Bạn hỏi lại nhé? 🦦".data

/-- Lines 505-508: the try/catch of `chatWithOtter`: every thrown error is
swallowed into the fallback reply. -/
def chatTryCatch (tryOutcome : Except JsError (List Char)) : Except JsError (List Char) :=
  match tryOutcome with
  | Except.ok v => Except.ok v
  | Except.error _ => Except.ok chatFallback

/-! ## Helper lemmas -/

theorem totalText_append (a b : List PackedSegment) :
    totalText (a ++ b) = totalText a + totalText b := by
  induction a with
  | nil => simp [totalText]
  | cons s rest ih =>
    cases s <;> simp [totalText, ih, Nat.add_assoc]

theorem countWarnings_append (a b : List PackedSegment) :
    countWarnings (a ++ b) = countWarnings a + countWarnings b := by
  induction a with
  | nil => simp [countWarnings]
  | cons s rest ih =>
    cases s <;> simp [countWarnings, ih, Nat.add_assoc]

theorem delayDoubling (d m : Nat) :
    d :: (List.range m).map (fun k => d * 2 * 2 ^ k) =
      (List.range (m + 1)).map (fun k => d * 2 ^ k) := by
  rw [List.range_succ_eq_map, List.map_cons, List.map_map]
  have hf : ((fun k => d * 2 ^ k) ∘ Nat.succ) = fun k => d * 2 * 2 ^ k := by
    funext k
    simp [Function.comp, pow_succ]
    ring
  rw [hf]
  simp

theorem retryLoop_allTransient {T : Type} (call : Nat → CallOutcome T) :
    ∀ (r i delay : Nat) (lastE : Option JsError) (acc : List Nat), 1 ≤ r →
      (∀ j, j < r → ∃ e, call (i + j) = CallOutcome.failure e ∧ isRateLimit e = true) →
      (retryLoop call r i delay lastE acc).attempts = i + r ∧
      (retryLoop call r i delay lastE acc).delays =
        acc ++ (List.range (r - 1)).map (fun k => delay * 2 ^ k) := by
  intro r
  induction r with
  | zero => intro i delay lastE acc h; omega
  | succ r' ih =>
    intro i delay lastE acc _ hfail
    obtain ⟨e, hce, hrl⟩ := hfail 0 (Nat.succ_pos r')
    rw [Nat.add_zero] at hce
    by_cases hr : r' = 0
    · subst hr
      simp [retryLoop, hce, hrl]
    · have h1 : 1 ≤ r' := by omega
      have hshift : ∀ j, j < r' → ∃ e', call (i + 1 + j) = CallOutcome.failure e' ∧
          isRateLimit e' = true := by
        intro j hj
        have := hfail (j + 1) (by omega)
        rwa [show i + (j + 1) = i + 1 + j by omega] at this
      have hrec := ih (i + 1) (delay * 2) (some e) (acc ++ [delay]) h1 hshift
      have hstep : retryLoop call (r' + 1) i delay lastE acc =
          retryLoop call r' (i + 1) (delay * 2) (some e) (acc ++ [delay]) := by
        simp [retryLoop, hce, hrl, hr]
      rw [hstep]
      refine ⟨by rw [hrec.1]; omega, ?_⟩
      rw [hrec.2, List.append_assoc]
      have hm : r' - 1 + 1 = r' := by omega
      rw [show ([delay] ++ (List.range (r' - 1)).map fun k => delay * 2 * 2 ^ k) =
            (delay :: (List.range (r' - 1)).map fun k => delay * 2 * 2 ^ k) from rfl]
      rw [delayDoubling delay (r' - 1), hm]
      simp

/-- C1 (amended): when every attempt fails with a Transient failure and the
failure sequence is longer than `retries = n ≥ 1`, `retryGeminiCall` makes
exactly `n` total attempts (the loop `for (i = 0; i < retries; i++)` counts
attempts, not additional retries), and the delay slept before attempt `k+1`
equals `initialDelay * 2^(k-1)` for every `1 ≤ k ≤ n-1`; no delay is slept
after the final failed attempt. -/
theorem retryAllTransientBackoff {T : Type} (call : Nat → CallOutcome T) (n d : Nat)
    (hn : 1 ≤ n) (_hd : 1 ≤ d)
    (hfail : ∀ i, i < n → ∃ e, call i = CallOutcome.failure e ∧ isRateLimit e = true) :
    (retryGeminiCall call n d).attempts = n ∧
    (retryGeminiCall call n d).delays = (List.range (n - 1)).map (fun k => d * 2 ^ k) := by
  have h := retryLoop_allTransient call n 0 d none [] hn (by simpa using hfail)
  simpa [retryGeminiCall] using h

/-- C1 counterexample: with `retries = 1` and an always-429 call, the wrapper
makes exactly 1 attempt, not `1 + 1 = 2` as the claim states. -/
theorem retryAllTransientAttemptsCex :
    (retryGeminiCall (fun _ => CallOutcome.failure ⟨some 429, none⟩ : Nat → CallOutcome Nat)
      1 2).attempts ≠ 1 + 1 := by
  decide

/-- C1 witness: with `retries = 3`, `initialDelay = 2000` and an always-429
call: 3 attempts, delays 2000ms then 4000ms. -/
theorem retryAllTransientBackoffInst :
    (retryGeminiCall (fun _ => CallOutcome.failure ⟨some 429, none⟩ : Nat → CallOutcome Nat)
      3 2000).attempts = 3 ∧
    (retryGeminiCall (fun _ => CallOutcome.failure ⟨some 429, none⟩ : Nat → CallOutcome Nat)
      3 2000).delays = [2000, 4000] := by
  have h := retryAllTransientBackoff
    (fun _ => CallOutcome.failure ⟨some 429, none⟩ : Nat → CallOutcome Nat) 3 2000
    (by decide) (by decide) (fun i _ => ⟨⟨some 429, none⟩, rfl, by decide⟩)
  exact ⟨h.1, by rw [h.2]; decide⟩

/-- C6: a first-attempt failure that is not classified Transient (not status
429/503 and no rate-limit/quota/overload marker in the message) is rethrown
at once: exactly one attempt, no delay, the original error propagated. -/
theorem retryFatalSingleAttempt {T : Type} (call : Nat → CallOutcome T) (retries d : Nat)
    (e : JsError) (hr : 1 ≤ retries) (h0 : call 0 = CallOutcome.failure e)
    (hf : isRateLimit e = false) :
    (retryGeminiCall call retries d).result = Except.error (RetryError.raised e) ∧
    (retryGeminiCall call retries d).attempts = 1 ∧
    (retryGeminiCall call retries d).delays = [] := by
  obtain ⟨r', rfl⟩ : ∃ r', retries = r' + 1 := ⟨retries - 1, by omega⟩
  simp [retryGeminiCall, retryLoop, h0, hf]

/-- C6 witness: a call always failing with status 500 and message "Internal
Server Error" (not Transient) under `retries = 2`: one attempt, the original
error rethrown, no delay. -/
theorem retryFatalSingleAttemptInst :
    (retryGeminiCall
      (fun _ => CallOutcome.failure ⟨some 500, some "Internal Server Error".data⟩ :
        Nat → CallOutcome Nat) 2 1000).result =
      Except.error (RetryError.raised ⟨some 500, some "Internal Server Error".data⟩) ∧
    (retryGeminiCall
      (fun _ => CallOutcome.failure ⟨some 500, some "Internal Server Error".data⟩ :
        Nat → CallOutcome Nat) 2 1000).attempts = 1 ∧
    (retryGeminiCall
      (fun _ => CallOutcome.failure ⟨some 500, some "Internal Server Error".data⟩ :
        Nat → CallOutcome Nat) 2 1000).delays = [] :=
  retryFatalSingleAttempt _ 2 1000 _ (by decide) rfl (by decide)

/-- C7 (amended): with `retries = 0` the loop body never runs, so the wrapper
makes zero attempts of the underlying call (not one), and always throws the
generic-overload friendly error: `lastError` is still undefined, the cleaned
message defaults to "Unknown error", which carries no quota marker. -/
theorem retryZeroRetries {T : Type} (call : Nat → CallOutcome T) (d : Nat) :
    (retryGeminiCall call 0 d).result = Except.error (RetryError.friendly overloadedMsg) ∧
    (retryGeminiCall call 0 d).attempts = 0 ∧
    (retryGeminiCall call 0 d).delays = [] := by
  have h : exhaustedError none = RetryError.friendly overloadedMsg := by decide
  exact ⟨by rw [show (retryGeminiCall call 0 d).result =
    Except.error (exhaustedError none) from rfl, h], rfl, rfl⟩

/-- C7 counterexample: with `retries = 0` and a call that would fail with a
Transient 429, the wrapper makes 0 attempts, not exactly one as the claim
states. -/
theorem retryZeroRetriesAttemptCex :
    (retryGeminiCall (fun _ => CallOutcome.failure ⟨some 429, none⟩ : Nat → CallOutcome Nat)
      0 1000).attempts ≠ 1 := by
  decide

theorem totalText_cons_header (t u : List Char) (l : List PackedSegment) :
    totalText (PackedSegment.header t u :: l) = totalText l := rfl

theorem totalText_cons_warning (l : List PackedSegment) :
    totalText (PackedSegment.limitWarning :: l) = totalText l := rfl

theorem totalText_cons_footer (t : List Char) (l : List PackedSegment) :
    totalText (PackedSegment.footer t :: l) = totalText l := rfl

theorem totalText_cons_attach (m d : List Char) (l : List PackedSegment) :
    totalText (PackedSegment.attachment m d :: l) = totalText l := rfl

theorem totalText_cons_fileText (s : List Char) (l : List PackedSegment) :
    totalText (PackedSegment.fileText s :: l) = s.length + totalText l := rfl

theorem packSegs_stop (B c : Nat) (item : ContentFile) (rest : List ContentFile)
    (h : B ≤ c) : packSegs B (item :: rest) c = [PackedSegment.limitWarning] := by
  simp [packSegs, h]

theorem packSegs_skip (B c : Nat) (item : ContentFile) (rest : List ContentFile)
    (h : ¬ B ≤ c) (he : item.content.isEmpty = true) :
    packSegs B (item :: rest) c = packSegs B rest c := by
  simp [packSegs, h, he]

theorem packSegs_text (B c : Nat) (item : ContentFile) (rest : List ContentFile)
    (h : ¬ B ≤ c) (he : item.content.isEmpty = false) (ht : item.isText = true) :
    packSegs B (item :: rest) c =
      PackedSegment.fileText
        (if B - c < item.content.length then item.content.take (B - c) ++ TRUNC_SUFFIX
         else item.content) ::
      packSegs B rest
        (c + (if B - c < item.content.length then item.content.take (B - c) ++ TRUNC_SUFFIX
              else item.content).length) := by
  simp [packSegs, h, he, ht]

theorem packSegs_binary (B c : Nat) (item : ContentFile) (rest : List ContentFile)
    (h : ¬ B ≤ c) (he : item.content.isEmpty = false) (ht : item.isText = false) :
    packSegs B (item :: rest) c =
      PackedSegment.attachment MIME_PDF (stripBase64 item.content) ::
        packSegs B rest (c + BINARY_PENALTY) := by
  simp [packSegs, h, he, ht]

theorem packChars_stop (B c : Nat) (item : ContentFile) (rest : List ContentFile)
    (h : B ≤ c) : packChars B (item :: rest) c = c := by
  simp [packChars, h]

theorem packChars_skip (B c : Nat) (item : ContentFile) (rest : List ContentFile)
    (h : ¬ B ≤ c) (he : item.content.isEmpty = true) :
    packChars B (item :: rest) c = packChars B rest c := by
  simp [packChars, h, he]

theorem packChars_text (B c : Nat) (item : ContentFile) (rest : List ContentFile)
    (h : ¬ B ≤ c) (he : item.content.isEmpty = false) (ht : item.isText = true) :
    packChars B (item :: rest) c =
      packChars B rest
        (c + (if B - c < item.content.length then item.content.take (B - c) ++ TRUNC_SUFFIX
              else item.content).length) := by
  simp [packChars, h, he, ht]

theorem packChars_binary (B c : Nat) (item : ContentFile) (rest : List ContentFile)
    (h : ¬ B ≤ c) (he : item.content.isEmpty = false) (ht : item.isText = false) :
    packChars B (item :: rest) c = packChars B rest (c + BINARY_PENALTY) := by
  simp [packChars, h, he, ht]

theorem packSegs_totalText_le (B : Nat) :
    ∀ (items : List ContentFile) (c : Nat),
      totalText (packSegs B items c) ≤ B + TRUNC_SUFFIX.length - c := by
  intro items
  induction items with
  | nil => intro c; simp [packSegs, totalText]
  | cons item rest ih =>
    intro c
    by_cases hlim : B ≤ c
    · rw [packSegs_stop B c item rest hlim]
      simp [totalText]
    · cases he : item.content.isEmpty with
      | true =>
        rw [packSegs_skip B c item rest hlim he]
        exact ih c
      | false =>
        cases ht : item.isText with
        | true =>
          rw [packSegs_text B c item rest hlim he ht]
          by_cases htr : B - c < item.content.length
          · rw [if_pos htr]
            rw [totalText_cons_fileText, List.length_append]
            have hlen : (item.content.take (B - c)).length = B - c := by
              rw [List.length_take]; omega
            have hrec := ih (c + ((item.content.take (B - c)).length + TRUNC_SUFFIX.length))
            rw [hlen] at hrec ⊢
            omega
          · rw [if_neg htr]
            rw [totalText_cons_fileText]
            have hrec := ih (c + item.content.length)
            omega
        | false =>
          rw [packSegs_binary B c item rest hlim he ht]
          rw [totalText_cons_attach]
          have hrec := ih (c + BINARY_PENALTY)
          omega

/-- C2: for every category processed with budget `B` and every item
sequence, the total characters of emitted item text (the `textToAdd`
payloads, a truncated one already carrying the suffix marker) never exceed
`B` plus the length of one truncation-suffix marker. -/
theorem packBudgetBound (items : List ContentFile) (t u : List Char) (B : Nat) :
    totalText (addContentParts items t u B) ≤ B + TRUNC_SUFFIX.length := by
  unfold addContentParts
  split
  · simp [totalText]
  · have h := packSegs_totalText_le B items 0
    rw [totalText_cons_header, totalText_append, totalText_cons_footer]
    simp only [totalText]
    omega

theorem packTrace_stop (B c : Nat) (item : ContentFile) (rest : List ContentFile)
    (h : B ≤ c) : packTrace B (item :: rest) c = [c] := by
  simp [packTrace, h]

theorem packTrace_skip (B c : Nat) (item : ContentFile) (rest : List ContentFile)
    (h : ¬ B ≤ c) (he : item.content.isEmpty = true) :
    packTrace B (item :: rest) c = c :: packTrace B rest c := by
  simp [packTrace, h, he]

theorem packTrace_text (B c : Nat) (item : ContentFile) (rest : List ContentFile)
    (h : ¬ B ≤ c) (he : item.content.isEmpty = false) (ht : item.isText = true) :
    packTrace B (item :: rest) c =
      c :: packTrace B rest
        (c + (if B - c < item.content.length then item.content.take (B - c) ++ TRUNC_SUFFIX
              else item.content).length) := by
  simp [packTrace, h, he, ht]

theorem packTrace_binary (B c : Nat) (item : ContentFile) (rest : List ContentFile)
    (h : ¬ B ≤ c) (he : item.content.isEmpty = false) (ht : item.isText = false) :
    packTrace B (item :: rest) c = c :: packTrace B rest (c + BINARY_PENALTY) := by
  simp [packTrace, h, he, ht]

theorem packTrace_bound (B : Nat) :
    ∀ (items : List ContentFile) (c : Nat), c ≤ B + (BINARY_PENALTY - 1) →
      ∀ x ∈ packTrace B items c, x ≤ B + (BINARY_PENALTY - 1) := by
  intro items
  induction items with
  | nil =>
    intro c hc x hx
    simp [packTrace] at hx
    omega
  | cons item rest ih =>
    intro c hc x hx
    have hsuf : TRUNC_SUFFIX.length = 63 := by decide
    have hpen : BINARY_PENALTY = 50000 := rfl
    by_cases hlim : B ≤ c
    · rw [packTrace_stop B c item rest hlim] at hx
      simp at hx
      omega
    · cases he : item.content.isEmpty with
      | true =>
        rw [packTrace_skip B c item rest hlim he] at hx
        rcases List.mem_cons.mp hx with rfl | hx
        · exact hc
        · exact ih c hc x hx
      | false =>
        cases ht : item.isText with
        | true =>
          rw [packTrace_text B c item rest hlim he ht] at hx
          rcases List.mem_cons.mp hx with rfl | hx
          · exact hc
          · by_cases htr : B - c < item.content.length
            · rw [if_pos htr] at hx
              have hlen : (item.content.take (B - c)).length = B - c := by
                rw [List.length_take]; omega
              rw [List.length_append, hlen] at hx
              exact ih _ (by omega) x hx
            · rw [if_neg htr] at hx
              exact ih _ (by omega) x hx
        | false =>
          rw [packTrace_binary B c item rest hlim he ht] at hx
          rcases List.mem_cons.mp hx with rfl | hx
          · exact hc
          · exact ih _ (by omega) x hx

/-- C3 (amended): the running character count can exceed the budget - after
a truncated text item it stands at `budget + TRUNC_SUFFIX.length`, and a
binary item can push it up to `budget - 1 + BINARY_PENALTY` - but it never
exceeds `budget + (BINARY_PENALTY - 1)`; once the count has reached or
exceeded the budget, no further text from the category is appended; and a
binary attachment advances the count by exactly the fixed nominal penalty
`BINARY_PENALTY = 50000`. -/
theorem packCounterInvariants (B : Nat) (items : List ContentFile) :
    (∀ x ∈ packTrace B items 0, x ≤ B + (BINARY_PENALTY - 1)) ∧
    (∀ (c : Nat) (rest : List ContentFile), B ≤ c → totalText (packSegs B rest c) = 0) ∧
    (∀ (c : Nat) (content : List Char) (rest : List ContentFile), c < B → content ≠ [] →
      packChars B (⟨content, false⟩ :: rest) c = packChars B rest (c + BINARY_PENALTY)) := by
  refine ⟨packTrace_bound B items 0 (by omega), ?_, ?_⟩
  · intro c rest hc
    cases rest with
    | nil => simp [packSegs, totalText]
    | cons item r =>
      rw [packSegs_stop B c item r hc]
      simp [totalText]
  · intro c content rest hc hne
    refine packChars_binary B c ⟨content, false⟩ rest (by omega) ?_ rfl
    simpa using hne

/-- C3 counterexample: with budget 1 and a single text item "ab", the
running count reaches `1 + TRUNC_SUFFIX.length = 64 > 1`, so the count does
exceed the budget. -/
theorem packCounterExceedsBudgetCex :
    1 + TRUNC_SUFFIX.length ∈ packTrace 1 [⟨"ab".data, true⟩] 0 ∧
    ¬ (1 + TRUNC_SUFFIX.length ≤ 1) := by
  decide

/-- C3 witness: concrete instances of the three amended conjuncts. -/
theorem packCounterInvariantsInst :
    (1 + TRUNC_SUFFIX.length ≤ 1 + (BINARY_PENALTY - 1)) ∧
    totalText (packSegs 3 [⟨"xy".data, true⟩] 5) = 0 ∧
    packChars 4 [⟨"base64,Q".data, false⟩] 1 = packChars 4 [] (1 + BINARY_PENALTY) :=
  ⟨(packCounterInvariants 1 [⟨"ab".data, true⟩]).1 (1 + TRUNC_SUFFIX.length) (by decide),
   (packCounterInvariants 3 []).2.1 5 [⟨"xy".data, true⟩] (by decide),
   (packCounterInvariants 4 []).2.2 1 "base64,Q".data [] (by decide) (by decide)⟩

/-- C4 (amended): for a single text item of length `L` under a positive
budget `B`, the emitted item-text length is exactly `L` when `L ≤ B` and
exactly `B + TRUNC_SUFFIX.length` when `L > B`; in the truncating case the
output is exactly the header, one truncated text segment (the first `B`
characters plus the suffix marker), and the category-end marker.  With
`B = 0` the item is dropped before truncation is ever reached (see the
counterexample), so positivity is required. -/
theorem packSingleTextItem (content t u : List Char) (B : Nat) (hB : 1 ≤ B) :
    totalText (addContentParts [⟨content, true⟩] t u B) =
      (if content.length ≤ B then content.length else B + TRUNC_SUFFIX.length) ∧
    (B < content.length →
      addContentParts [⟨content, true⟩] t u B =
        [PackedSegment.header t u,
         PackedSegment.fileText (content.take B ++ TRUNC_SUFFIX),
         PackedSegment.footer t]) := by
  have hlim : ¬ B ≤ 0 := by omega
  have hadd : addContentParts [⟨content, true⟩] t u B =
      PackedSegment.header t u ::
        (packSegs B [⟨content, true⟩] 0 ++ [PackedSegment.footer t]) := by
    simp [addContentParts]
  cases he : content.isEmpty with
  | true =>
    have hc : content = [] := by simpa using he
    subst hc
    refine ⟨?_, fun hlt => absurd hlt (by simp)⟩
    rw [hadd, packSegs_skip B 0 ⟨[], true⟩ [] hlim rfl]
    simp [packSegs, totalText, hB]
  | false =>
    rw [hadd, packSegs_text B 0 ⟨content, true⟩ [] hlim he rfl]
    simp only [Nat.sub_zero]
    by_cases htr : B < content.length
    · rw [if_pos htr]
      have hlen : (content.take B).length = B := by
        rw [List.length_take]; omega
      constructor
      · rw [totalText_cons_header, totalText_append, totalText_cons_fileText,
          totalText_cons_footer]
        simp only [packSegs, totalText, List.length_append, hlen]
        rw [if_neg (by omega)]
        omega
      · intro _
        simp [packSegs]
    · rw [if_neg htr]
      refine ⟨?_, fun hlt => absurd hlt htr⟩
      rw [totalText_cons_header, totalText_append, totalText_cons_fileText,
        totalText_cons_footer]
      simp only [packSegs, totalText]
      rw [if_pos (by omega)]
      omega

/-- C4 counterexample: with budget `B = 0` and a single text item "a"
(`L = 1 > B`), the loop stops before the item is examined, so no text at all
is emitted - not `B` characters plus the suffix marker as the claim states
for `L > B`. -/
theorem packSingleTextZeroBudgetCex :
    totalText (addContentParts [⟨"a".data, true⟩] [] [] 0) ≠ 0 + TRUNC_SUFFIX.length := by
  decide

/-- C4 witness: a 4-character item under budget 2 emits exactly
`2 + TRUNC_SUFFIX.length` characters of item text. -/
theorem packSingleTextItemInst :
    totalText (addContentParts [⟨"abcd".data, true⟩] [] [] 2) = 2 + TRUNC_SUFFIX.length := by
  have h := (packSingleTextItem "abcd".data [] [] 2 (by decide)).1
  rw [h]
  decide

/-- C5: with two text items where item 1 alone already consumes at least the
whole budget `B`, no content of item 2 appears in the output (every
file-content segment is derived from item 1: its full content, or its first
`B` characters plus the suffix) and the category-stop truncation marker
segment appears exactly once. -/
theorem packTwoItemsFirstFills (c1 c2 t u : List Char) (B : Nat) (h : B ≤ c1.length) :
    countWarnings (addContentParts [⟨c1, true⟩, ⟨c2, true⟩] t u B) = 1 ∧
    (∀ p, PackedSegment.fileText p ∈ addContentParts [⟨c1, true⟩, ⟨c2, true⟩] t u B →
      p = c1 ∨ p = c1.take B ++ TRUNC_SUFFIX) := by
  have hadd : addContentParts [⟨c1, true⟩, ⟨c2, true⟩] t u B =
      PackedSegment.header t u ::
        (packSegs B [⟨c1, true⟩, ⟨c2, true⟩] 0 ++ [PackedSegment.footer t]) := by
    simp [addContentParts]
  by_cases hB : B = 0
  · subst hB
    rw [hadd, packSegs_stop 0 0 ⟨c1, true⟩ [⟨c2, true⟩] (le_refl 0)]
    constructor
    · simp [countWarnings]
    · intro p hp
      simp [List.mem_cons] at hp
  · have he : c1.isEmpty = false := by
      cases c1 with
      | nil => simp at h; omega
      | cons a l => rfl
    rw [hadd, packSegs_text B 0 ⟨c1, true⟩ [⟨c2, true⟩] (by omega) he rfl]
    simp only [Nat.sub_zero]
    by_cases htr : B < c1.length
    · rw [if_pos htr]
      have hlen : (c1.take B).length = B := by
        rw [List.length_take]; omega
      rw [packSegs_stop B _ ⟨c2, true⟩ [] (by rw [List.length_append, hlen]; omega)]
      constructor
      · simp [countWarnings]
      · intro p hp
        simp [List.mem_cons] at hp
        exact Or.inr hp
    · rw [if_neg htr]
      rw [packSegs_stop B _ ⟨c2, true⟩ [] (by omega)]
      constructor
      · simp [countWarnings]
      · intro p hp
        simp [List.mem_cons] at hp
        exact Or.inl hp

/-- C5 witness: budget 2, item 1 of length 3 (consuming the whole budget),
item 2 "zz": exactly one stop marker in the output. -/
theorem packTwoItemsFirstFillsInst :
    countWarnings (addContentParts [⟨"abc".data, true⟩, ⟨"zz".data, true⟩] [] [] 2) = 1 :=
  (packTwoItemsFirstFills "abc".data "zz".data [] [] 2 (by decide)).1

/-- C8 (amended): a binary (non-text) item with nonempty content under a
positive budget is emitted as one attachment segment carrying the fixed
`application/pdf` media type and the payload `content.split('base64,')[1]` -
the portion of the content strictly between the first and second occurrences
of the marker (which is everything after the marker only when the marker
occurs exactly once) - or the full content when no marker is present, and
the running counter advances by exactly the fixed penalty
`BINARY_PENALTY = 50000`. -/
theorem packBinaryItem (content t u : List Char) (B : Nat) (hB : 1 ≤ B)
    (hc : content ≠ []) :
    addContentParts [⟨content, false⟩] t u B =
      [PackedSegment.header t u,
       PackedSegment.attachment MIME_PDF (stripBase64 content),
       PackedSegment.footer t] ∧
    packChars B [⟨content, false⟩] 0 = BINARY_PENALTY := by
  have hlim : ¬ B ≤ 0 := by omega
  have he : content.isEmpty = false := by
    cases content with
    | nil => exact absurd rfl hc
    | cons a l => rfl
  constructor
  · have hadd : addContentParts [⟨content, false⟩] t u B =
        PackedSegment.header t u ::
          (packSegs B [⟨content, false⟩] 0 ++ [PackedSegment.footer t]) := by
      simp [addContentParts]
    rw [hadd, packSegs_binary B 0 ⟨content, false⟩ [] hlim he rfl]
    simp [packSegs]
  · rw [packChars_binary B 0 ⟨content, false⟩ [] hlim he rfl]
    simp [packChars]

/-- C8 counterexample: for content containing the marker twice,
"base64,Abase64,B", `split('base64,')[1]` is "A", so the packer does not
emit an attachment carrying "the substring after the base64 marker"
("Abase64,B") as the claim describes. -/
theorem packBinaryPayloadCex :
    PackedSegment.attachment MIME_PDF (stripSpecWorded "base64,Abase64,B".data) ∉
      addContentParts [⟨"base64,Abase64,B".data, false⟩] [] [] 1 := by
  decide

/-- C8 witness: a binary item "base64,XY" under budget 1 yields one
attachment with payload "XY". -/
theorem packBinaryItemInst :
    addContentParts [⟨"base64,XY".data, false⟩] [] [] 1 =
      [PackedSegment.header [] [],
       PackedSegment.attachment MIME_PDF "XY".data,
       PackedSegment.footer []] := by
  have h := (packBinaryItem "base64,XY".data [] [] 1 (by decide) (by decide)).1
  rw [h]
  decide

/-- C9 (amended): only the vision station-check distinguishes failures: an
error whose message mentions "quá tải", "quota" or "429" propagates, any
other error (including a `JSON.parse` failure on the response text) yields
the safe default `{ isValid: false, questions: [] }`; the mentor analysis
and chat features return their safe defaults on every failure, including
quota/overload failures, which they do not propagate. -/
theorem secondaryFailureHandling :
    (∀ e : JsError,
      (msgTruthy e && (msgHas e "quá tải".data || msgHas e "quota".data ||
        msgHas e "429".data)) = true →
      visionTryCatch (Except.error e) = Except.error e) ∧
    (∀ e : JsError,
      (msgTruthy e && (msgHas e "quá tải".data || msgHas e "quota".data ||
        msgHas e "429".data)) = false →
      visionTryCatch (Except.error e) = Except.ok ⟨false, []⟩) ∧
    (∀ e : JsError, mentorTryCatch (Except.error e) = Except.ok mentorFallback) ∧
    (∀ e : JsError, chatTryCatch (Except.error e) = Except.ok chatFallback) := by
  refine ⟨?_, ?_, fun _ => rfl, fun _ => rfl⟩
  · intro e he
    simp [visionTryCatch, visionCatch, he]
  · intro e he
    simp [visionTryCatch, visionCatch, he]

/-- C9 counterexample: a quota failure reaching `analyzeResultWithOtter`'s
catch is swallowed into the fallback mentor response instead of propagating
out of the function as the claim requires for every secondary feature. -/
theorem mentorQuotaSwallowedCex :
    mentorTryCatch (Except.error ⟨none, some "quota exceeded".data⟩) ≠
      Except.error ⟨none, some "quota exceeded".data⟩ :=
  fun h => Except.noConfusion h

/-- C9 witness: a JSON-parse failure message yields the vision safe default;
the friendly overload message propagates out of the vision feature. -/
theorem secondaryFailureHandlingInst :
    visionTryCatch (Except.error ⟨none, some "Unexpected token < in JSON".data⟩) =
      Except.ok ⟨false, []⟩ ∧
    visionTryCatch (Except.error ⟨none, some overloadedMsg⟩) =
      Except.error ⟨none, some overloadedMsg⟩ :=
  ⟨secondaryFailureHandling.2.1 ⟨none, some "Unexpected token < in JSON".data⟩ (by decide),
   secondaryFailureHandling.1 ⟨none, some overloadedMsg⟩ (by decide)⟩

/-- C10: an item whose content is the empty string (falsy in JavaScript) is
skipped entirely when the loop examines it - no text and no attachment
segment for it, counter unchanged - whether it is marked text or binary; and
when the budget is already exhausted the loop emits only the stop marker
before examining any item, so an empty item still contributes no segment and
no counter change there either. -/
theorem packEmptyContentNoop (b : Bool) (rest : List ContentFile) (B c : Nat) :
    (c < B →
      packSegs B (⟨[], b⟩ :: rest) c = packSegs B rest c ∧
      packChars B (⟨[], b⟩ :: rest) c = packChars B rest c) ∧
    (B ≤ c →
      packSegs B (⟨[], b⟩ :: rest) c = [PackedSegment.limitWarning] ∧
      packChars B (⟨[], b⟩ :: rest) c = c) := by
  constructor
  · intro h
    exact ⟨packSegs_skip B c ⟨[], b⟩ rest (by omega) rfl,
           packChars_skip B c ⟨[], b⟩ rest (by omega) rfl⟩
  · intro h
    exact ⟨packSegs_stop B c ⟨[], b⟩ rest h, packChars_stop B c ⟨[], b⟩ rest h⟩

/-- C10 witness: an empty text item and an empty binary item are both
no-ops before a following item. -/
theorem packEmptyContentNoopInst :
    packSegs 1 [⟨[], true⟩, ⟨"x".data, true⟩] 0 = packSegs 1 [⟨"x".data, true⟩] 0 ∧
    packChars 1 [⟨[], false⟩, ⟨"x".data, true⟩] 0 = packChars 1 [⟨"x".data, true⟩] 0 :=
  ⟨((packEmptyContentNoop true [⟨"x".data, true⟩] 1 0).1 (by decide)).1,
   ((packEmptyContentNoop false [⟨"x".data, true⟩] 1 0).1 (by decide)).2⟩
